import Mathlib

/-!
Verification of the AFT device lifecycle and access-control engine.

Shallow embedding of the relevant parts of the source:
* `src/devices/pcdevice.py` — mode entry with bounded retries, PEM keystroke
  injection in a separate timed process, remote-mount flashing and key
  installation;
* `src/devices/edisondevice.py` — DFU flashing calls and the ordered stage
  list;
* `src/cutters/clewarecutter.py`, `src/cutters/usbrelay.py` — cutter type
  tables, probe loops and channel switching;
* the reservation manager (imported by `src/main.py` as
  `aft.devicesmanager.DevicesManager`) is modelled from the specification,
  since its module is not part of the sources at hand.

Each Python function with external effects is modelled as a function from an
environment (oracles describing what the outside world does on each step) to
a trace of performed actions together with its outcome, so that temporal and
error-handling statements become statements about traces.
-/

namespace AFT

/-! ### PCDevice retry constants (src/devices/pcdevice.py lines 70-76) -/

/-- `PCDevice._RETRY_ATTEMPTS` class attribute (pcdevice.py line 70).
This is the attempt budget used by `_enter_mode`. -/
def PCDevice_RETRY_ATTEMPTS : Nat := 4

/-- The lowered retry count assigned in `PCDevice.check_connection`
(pcdevice.py line 595) for the lighter configuration checks. -/
def checkConnection_RETRY_ATTEMPTS : Nat := 3

/-- `PCDevice._BOOT_TIMEOUT` (pcdevice.py line 71). -/
def PCDevice_BOOT_TIMEOUT : Nat := 240

/-- `PCDevice._POLLING_INTERVAL` (pcdevice.py line 72). -/
def PCDevice_POLLING_INTERVAL : Nat := 10

/-! ### Mode entry: `PCDevice._enter_mode` (pcdevice.py lines 174-217)

The loop body performs: `_power_cycle()`, `_send_PEM_keystrokes(...)`,
`_wait_for_responsive_ip()`; when an ip address was obtained it calls
`_verify_mode` and returns when that verification succeeds.  After
`_RETRY_ATTEMPTS` failed iterations it raises `AFTDeviceError`. -/

/-- Observable actions of one `_enter_mode` loop iteration. -/
inductive ModeEv where
  | powerCycle
  | sendKeystrokes
  | waitIp
  | verifyMode
deriving DecidableEq, Repr

/-- Environment for `_enter_mode`: what the hardware does on the i-th
attempt (0-based).  `ipOk i` is whether `_wait_for_responsive_ip` returns a
truthy ip address; `verifyOk i` is whether `_verify_mode` returns `True`. -/
structure ModeEnv where
  ipOk : Nat → Bool
  verifyOk : Nat → Bool

/-- The actions performed by the i-th loop iteration of `_enter_mode`:
power cycle, PEM keystrokes and the ip wait always run; `_verify_mode` runs
only when an ip address was obtained. -/
def attemptTrace (env : ModeEnv) (i : Nat) : List ModeEv :=
  [ModeEv.powerCycle, ModeEv.sendKeystrokes, ModeEv.waitIp] ++
    (if env.ipOk i then [ModeEv.verifyMode] else [])

/-- The i-th attempt makes `_enter_mode` return exactly when an ip address
was obtained and the mode verification succeeded. -/
def attemptOk (env : ModeEnv) (i : Nat) : Bool :=
  env.ipOk i && env.verifyOk i

/-- The retry loop of `_enter_mode`: `fuel` iterations remain, the next
iteration has index `i`.  Returns the concatenated trace and `true` when the
function returned (success), `false` when it fell through the loop and
raised `AFTDeviceError`. -/
def enterModeAux (env : ModeEnv) : Nat → Nat → List ModeEv × Bool
  | 0, _ => ([], false)
  | Nat.succ fuel, i =>
      if attemptOk env i then (attemptTrace env i, true)
      else
        let rest := enterModeAux env fuel (i + 1)
        (attemptTrace env i ++ rest.1, rest.2)

/-- `PCDevice._enter_mode` with a retry budget (`self._RETRY_ATTEMPTS`). -/
def enterMode (env : ModeEnv) (retries : Nat) : List ModeEv × Bool :=
  enterModeAux env retries 0

/-- Number of attempts actually performed: each attempt starts with exactly
one power cycle, so we count those. -/
def attemptsPerformed (env : ModeEnv) (retries : Nat) : Nat :=
  (enterMode env retries).1.count ModeEv.powerCycle

/-! ### PEM keystroke injection: `PCDevice._send_PEM_keystrokes`
(pcdevice.py lines 220-270)

Each attempt spawns a daemon `multiprocessing.Process` running `pem_main`,
joins it with the given timeout, raises any exception found on the queue,
terminates the child if it is still alive (counting the attempt as failed)
and otherwise returns.  When all attempts fail it raises
`AFTDeviceError("Failed to connect to PEM")`. -/

/-- Default value of the `attempts` parameter of `_send_PEM_keystrokes`. -/
def sendPEM_default_attempts : Nat := 1

/-- Default value of the `timeout` parameter of `_send_PEM_keystrokes`. -/
def sendPEM_default_timeout : Nat := 60

/-- What the spawned PEM child process does on a given attempt:
it put an exception on the queue, it exited within the timeout,
or it is still alive when `join(timeout)` returns. -/
inductive PemOutcome where
  | raisedInQueue
  | exited
  | aliveAtTimeout
deriving DecidableEq, Repr

/-- Observable actions of `_send_PEM_keystrokes`. -/
inductive PemEv where
  | spawnProcess
  | joinWithTimeout (t : Nat)
  | terminateChild
deriving DecidableEq, Repr

/-- Result of `_send_PEM_keystrokes`. -/
inductive PemResult where
  | returned
  | raisedQueuedException
  | raisedDeviceError
deriving DecidableEq, Repr

/-- The attempt loop of `_send_PEM_keystrokes`; `fuel` attempts remain and
the next attempt has index `i`. -/
def sendPemAux (outcome : Nat → PemOutcome) (timeout : Nat) :
    Nat → Nat → List PemEv × PemResult
  | 0, _ => ([], PemResult.raisedDeviceError)
  | Nat.succ fuel, i =>
      let evs := [PemEv.spawnProcess, PemEv.joinWithTimeout timeout]
      match outcome i with
      | PemOutcome.raisedInQueue => (evs, PemResult.raisedQueuedException)
      | PemOutcome.exited => (evs, PemResult.returned)
      | PemOutcome.aliveAtTimeout =>
          let rest := sendPemAux outcome timeout fuel (i + 1)
          (evs ++ [PemEv.terminateChild] ++ rest.1, rest.2)

/-- `PCDevice._send_PEM_keystrokes`. -/
def sendPEMKeystrokes (outcome : Nat → PemOutcome) (attempts timeout : Nat) :
    List PemEv × PemResult :=
  sendPemAux outcome timeout attempts 0

/-- Whether an event is a `join`, regardless of its timeout value. -/
def isJoinEv : PemEv → Bool
  | PemEv.joinWithTimeout _ => true
  | _ => false

/-! ### Edison DFU transfer: `EdisonDevice._dfu_call`
(src/devices/edisondevice.py lines 256-286) and
`EdisonDevice._wait_for_device` (lines 243-254)

`_dfu_call(alt, source, extras=[], attempts=4, timeout=600)` loops while
`attempt < attempts`: it first calls `_wait_for_device()` (which polls
`dfu-util -l` for up to 15 seconds and raises `IOError` when the device
never shows up on the configured USB path), then spawns the `dfu-util`
transfer with `Popen` and polls it for up to `timeout` seconds.  As soon as
`poll()` returns a non-`None` status — whatever that status is — the
function closes the log and returns.  Otherwise the process is killed, the
device rebooted, and the next attempt begins.  Falling out of the loop
raises `IOError("Flashing failed 4 times. ...")`. -/

/-- Default value of the `attempts` parameter of `_dfu_call`. -/
def dfu_default_attempts : Nat := 4

/-- Default value of the `timeout` parameter of `_dfu_call` (seconds). -/
def dfu_default_timeout : Nat := 600

/-- The poll budget of `_wait_for_device` (seconds). -/
def dfu_wait_for_device_timeout : Nat := 15

/-- Observable actions of `_dfu_call`. -/
inductive DfuEv where
  | waitForDevice
  | spawnTransfer
  | killTransfer
  | rebootDevice
deriving DecidableEq, Repr

/-- Environment for `_dfu_call`, indexed by the attempt number (0-based):
`appears i` is whether `_wait_for_device` finds the device in DFU mode
within its 15-second budget; `exitStatus i` is `some c` when the transfer
process exits with status `c` within the timeout, `none` when it is still
running when the timeout expires. -/
structure DfuEnv where
  appears : Nat → Bool
  exitStatus : Nat → Option Int

/-- Result of `_dfu_call`. -/
inductive DfuResult where
  | returned
  | raisedWaitIOError
  | raisedFlashIOError
deriving DecidableEq, Repr

/-- The attempt loop of `_dfu_call`; `fuel` attempts remain and the next
attempt has index `i`. -/
def dfuCallAux (env : DfuEnv) : Nat → Nat → List DfuEv × DfuResult
  | 0, _ => ([], DfuResult.raisedFlashIOError)
  | Nat.succ fuel, i =>
      if env.appears i then
        match env.exitStatus i with
        | some _ => ([DfuEv.waitForDevice, DfuEv.spawnTransfer],
                     DfuResult.returned)
        | none =>
            let rest := dfuCallAux env fuel (i + 1)
            ([DfuEv.waitForDevice, DfuEv.spawnTransfer,
              DfuEv.killTransfer, DfuEv.rebootDevice] ++ rest.1, rest.2)
      else ([DfuEv.waitForDevice], DfuResult.raisedWaitIOError)

/-- `EdisonDevice._dfu_call` with a given attempt budget. -/
def dfuCall (env : DfuEnv) (attempts : Nat) : List DfuEv × DfuResult :=
  dfuCallAux env attempts 0

/-- The actions of one failed `_dfu_call` attempt: wait for the device,
spawn the transfer, force-kill it at the timeout, reboot the device. -/
def dfuFailBlock : List DfuEv :=
  [DfuEv.waitForDevice, DfuEv.spawnTransfer,
   DfuEv.killTransfer, DfuEv.rebootDevice]

/-! ### Edison flashing stage order: `EdisonDevice._flash_image`
(src/devices/edisondevice.py lines 289-311)

The method reboots the device and then runs `_dfu_call` for each stage in a
fixed textual order: the 14 IFWI firmware images (`ifwi0i`/`ifwib0i` for
`i` in 0..6), the bootloader (`u-boot0`, `u-boot-env0`, `u-boot-env1`),
then the `boot`, `update` and `rootfs` partitions.  Each `_dfu_call` either
returns or raises; a raise propagates out of `_flash_image`. -/

/-- The IFWI firmware stage alts, generated exactly like the loop
`for i in range(0, 7)` that issues `"ifwi0" + si` and `"ifwib0" + si`. -/
def ifwiStageNames : List String :=
  (List.range 7).flatMap
    (fun i => ["ifwi0" ++ toString i, "ifwib0" ++ toString i])

/-- The full ordered list of DFU stage alts run by `_flash_image`. -/
def flashStageNames : List String :=
  ifwiStageNames ++
    ["u-boot0", "u-boot-env0", "u-boot-env1", "boot", "update", "rootfs"]

/-- Sequential stage execution: run the stages in list order, where
`ok s = true` means the `_dfu_call` for stage `s` returns and
`ok s = false` means it raises.  Produces the list of stages that were
started, and `true` iff every stage completed.  A raised stage stops the
run immediately (the exception propagates). -/
def runStages (ok : String → Bool) : List String → List String × Bool
  | [] => ([], true)
  | s :: rest =>
      if ok s then
        let r := runStages ok rest
        (s :: r.1, r.2)
      else ([s], false)

/-- `EdisonDevice._flash_image`, abstracted over which stages succeed. -/
def edisonFlashImage (ok : String → Bool) : List String × Bool :=
  runStages ok flashStageNames

/-! ### Image classification: `PCDevice.write_image`
(src/devices/pcdevice.py lines 121-147)

`write_image` sets `self._uses_hddimg = os.path.splitext(file_name)[-1] ==
".hddimg"` and later `_install_tester_public_key` branches on that flag.
`os.path.splitext` is modelled below with POSIX semantics: the extension
starts at the last dot of the final path component, unless every character
of that component before the dot is itself a dot (leading dots are not an
extension). -/

/-- Index of the last occurrence of `c` in `l`, if any. -/
def lastIndexOf (l : List Char) (c : Char) : Option Nat :=
  match l with
  | [] => none
  | x :: xs =>
      match lastIndexOf xs c with
      | some i => some (i + 1)
      | none => if x = c then some 0 else none

/-- The extension part of `os.path.splitext` (POSIX): everything from the
last `'.'` onwards when that dot lies after the last `'/'` and the final
path component has a non-dot character before it; otherwise `""`. -/
def splitextExt (p : String) : String :=
  let l := p.toList
  match lastIndexOf l '.' with
  | none => ""
  | some dotIndex =>
      let fnameStart := match lastIndexOf l '/' with
        | none => 0
        | some sepIndex => sepIndex + 1
      if fnameStart ≤ dotIndex ∧
          ((l.drop fnameStart).take (dotIndex - fnameStart)).any
            (fun ch => ch ≠ '.') then
        String.mk (l.drop dotIndex)
      else ""

/-- `self._uses_hddimg` as assigned by `write_image` (pcdevice.py line
139). -/
def usesHddimg (file_name : String) : Bool :=
  splitextExt file_name == ".hddimg"

/-! ### Remote-mount flashing: `PCDevice._flash_image` (pcdevice.py lines
303-340) and `PCDevice._install_tester_public_key` (lines 412-516)

Both methods are straight-line sequences of `ssh.remote_execute` calls.
The `aft.tools.ssh` module itself is not among the sources at hand, so its
contract is modelled from the spec (see `remoteExecuteOk`).  Each issued
command is recorded together with the `ignore_return_codes` argument it was
given (`[]` when the argument was omitted). -/

/-- One `ssh.remote_execute` call: the argv it runs and the
`ignore_return_codes` argument. -/
structure RemoteCmd where
  argv : List String
  ignoreCodes : List Int
deriving DecidableEq, Repr

/-- Modelled from the spec: the remote execution boundary
(`aft.tools.ssh.remote_execute`) is not under the sources at hand; per the
spec, "any remote command returning a non-zero status aborts the current
flashing attempt and is surfaced", and the `ignore_return_codes` keyword
visible at the call sites whitelists specific statuses.  So a call
completes normally exactly when the remote status is `0` or is listed in
`ignore_return_codes`, and raises otherwise. -/
def remoteExecuteOk (status : Int) (ignoreCodes : List Int) : Bool :=
  status == 0 || ignoreCodes.contains status

/-- Run a command sequence: `status i` is the remote exit status of the
i-th issued command (counting from `base`).  Returns the commands actually
issued and `true` iff the whole sequence completed; the first command whose
status is neither `0` nor ignored raises, stopping the sequence. -/
def runRemoteSeq (status : Nat → Int) : Nat → List RemoteCmd →
    List RemoteCmd × Bool
  | _, [] => ([], true)
  | base, c :: rest =>
      if remoteExecuteOk (status base) c.ignoreCodes then
        let r := runRemoteSeq status (base + 1) rest
        (c :: r.1, r.2)
      else ([c], false)

/-- `PCDevice._IMG_NFS_MOUNT_POINT` (pcdevice.py line 74). -/
def IMG_NFS_MOUNT_POINT : String := "/mnt/img_data_nfs"

/-- `PCDevice._ROOT_PARTITION_MOUNT_POINT` (pcdevice.py line 75). -/
def ROOT_PARTITION_MOUNT_POINT : String := "/mnt/target_root/"

/-- `PCDevice._SUPER_ROOT_MOUNT_POINT` (pcdevice.py line 76). -/
def SUPER_ROOT_MOUNT_POINT : String := "/mnt/super_target_root/"

/-- `os.path.join` for two POSIX path components as used here (the second
argument never starts with a slash at these call sites after
`.lstrip("/")`). -/
def pathJoin (a b : String) : String :=
  if b.startsWith "/" then b
  else if a = "" ∨ a.endsWith "/" then a ++ b
  else a ++ "/" ++ b

/-- The `bmaptool` argv of `_flash_image` (pcdevice.py lines 320-327):
`--nobmap` is inserted at index 2 when no `.bmap` companion file exists. -/
def bmapArgs (hasBmap : Bool) (nfs_file_name target_device : String) :
    List String :=
  if hasBmap then ["bmaptool", "copy", nfs_file_name, target_device]
  else ["bmaptool", "copy", "--nobmap", nfs_file_name, target_device]

/-- The remote commands issued by `PCDevice._flash_image` (pcdevice.py
lines 314-340), in order.  The nfs mount passes
`ignore_return_codes=[32]`; every other call leaves the default. -/
def flashImageCmds (hasBmap : Bool) (nfs_file_name target_device : String) :
    List RemoteCmd :=
  [⟨["mount", IMG_NFS_MOUNT_POINT], [32]⟩,
   ⟨bmapArgs hasBmap nfs_file_name target_device, []⟩,
   ⟨["partprobe", target_device], []⟩,
   ⟨["sync"], []⟩,
   ⟨["udevadm", "trigger"], []⟩,
   ⟨["udevadm", "settle"], []⟩,
   ⟨["udevadm", "control", "-S"], []⟩]

/-- The remote command issued by `PCDevice._mount_single_layer`
(pcdevice.py lines 342-356). -/
def mountSingleLayerCmds (root_partition_path : String) : List RemoteCmd :=
  [⟨["mount", root_partition_path, ROOT_PARTITION_MOUNT_POINT], []⟩]

/-- The remote commands issued by `PCDevice._mount_two_layers`
(pcdevice.py lines 395-410). -/
def mountTwoLayersCmds (target_device : String) : List RemoteCmd :=
  [⟨["modprobe", "vfat"], []⟩,
   ⟨["mount", target_device, SUPER_ROOT_MOUNT_POINT], []⟩,
   ⟨["mount", SUPER_ROOT_MOUNT_POINT ++ "rootfs",
     ROOT_PARTITION_MOUNT_POINT], []⟩]

/-- The pipeline that discovers the root user's home directory
(pcdevice.py lines 426-443). -/
def rootHomeQueryArgv : List String :=
  ["cat", pathJoin ROOT_PARTITION_MOUNT_POINT "etc/passwd",
   "|", "grep", "-e", "\"^root\"",
   "|", "sed", "-e", "\"s/root:.*:root://\"",
   "|", "sed", "-e", "\"s/:.*//\""]

/-- The remote commands issued by `PCDevice._install_tester_public_key`
(pcdevice.py lines 412-516), in order: mount one or two layers depending
on `_uses_hddimg`, find the root home, create `.ssh`
(`ignore_return_codes=[1]`), fix permissions, append the key, fix its
permissions, set the IMA extended attribute when the image is not a
`.hddimg`, then sync and unmount. -/
def installKeyCmds (uses_hddimg : Bool)
    (root_partition_path target_device root_user_home : String) :
    List RemoteCmd :=
  (if !uses_hddimg then mountSingleLayerCmds root_partition_path
   else mountTwoLayersCmds target_device) ++
  [⟨rootHomeQueryArgv, []⟩,
   ⟨["mkdir",
     pathJoin (pathJoin ROOT_PARTITION_MOUNT_POINT root_user_home) ".ssh"],
    [1]⟩,
   ⟨["chmod", "700",
     pathJoin (pathJoin ROOT_PARTITION_MOUNT_POINT root_user_home) ".ssh"],
    []⟩,
   ⟨["cat", "~/.ssh/authorized_keys", ">>",
     pathJoin (pathJoin ROOT_PARTITION_MOUNT_POINT root_user_home)
       ".ssh/authorized_keys"], []⟩,
   ⟨["chmod", "600",
     pathJoin (pathJoin ROOT_PARTITION_MOUNT_POINT root_user_home)
       ".ssh/authorized_keys"], []⟩] ++
  (if !uses_hddimg then
    [⟨["setfattr", "-n", "security.ima", "-v",
       "0x01`sha1sum " ++
         pathJoin (pathJoin ROOT_PARTITION_MOUNT_POINT root_user_home)
           ".ssh/authorized_keys" ++ " | cut '-d ' -f1`",
       pathJoin (pathJoin ROOT_PARTITION_MOUNT_POINT root_user_home)
         ".ssh/authorized_keys"], []⟩]
   else []) ++
  [⟨["sync"], []⟩,
   ⟨["umount", ROOT_PARTITION_MOUNT_POINT], []⟩]

/-- The full remote-mount flashing path of `write_image` after mode entry:
`_flash_image` followed by `_install_tester_public_key`. -/
def remoteFlashCmds (uses_hddimg hasBmap : Bool)
    (nfs_file_name target_device root_partition_path root_user_home :
      String) : List RemoteCmd :=
  flashImageCmds hasBmap nfs_file_name target_device ++
    installKeyCmds uses_hddimg root_partition_path target_device
      root_user_home

/-! ### Cleware cutters (src/cutters/clewarecutter.py)

`ClewareCutter.init` registers the static type table (lines 51-75);
`_get_type` (lines 80-89) returns the first table entry whose version
matches, else `None`; `_set_channel_connected_state` (lines 152-164) issues
the `clewarecontrol -as` command with the closing or opening value and then
sleeps — per the code, only when the command result exists and its
returncode is not 0 — for the closing or opening transient. -/

/-- The `ClewareCutterTypes` namedtuple (clewarecutter.py lines 24-27). -/
structure ClewareCutterType where
  version : Int
  cutter_type : String
  channels : Nat
  opening_value : Nat
  closing_value : Nat
  opening_transient : Nat
  closing_transient : Nat
deriving DecidableEq, Repr

/-- The static Cleware type table built by `ClewareCutter.init`
(clewarecutter.py lines 51-75), in registration order. -/
def clewareTypes : List ClewareCutterType :=
  [⟨5, "USB", 1, 0, 1, 1, 3⟩,
   ⟨23, "MainsSingle", 1, 0, 1, 3, 5⟩,
   ⟨29, "MainsQuad", 4, 0, 1, 3, 5⟩,
   ⟨51, "MainsSingleNew", 4, 0, 1, 3, 5⟩,
   ⟨512, "MainsQuad", 4, 0, 1, 3, 5⟩]

/-- `ClewareCutter._get_type`: first entry with a matching version. -/
def clewareGetType (types : List ClewareCutterType) (version : Int) :
    Option ClewareCutterType :=
  match types with
  | [] => none
  | t :: rest =>
      if t.version = version then some t
      else clewareGetType rest version

/-- The result object of `ClewareCutter.run_on_self` — `None` models a
failed tool invocation, `some r` an invocation that produced a returncode.
-/
structure RunOutcome where
  returncode : Int
deriving DecidableEq, Repr

/-- The relay value written by `_set_channel_connected_state`:
`closing_value` when connecting, `opening_value` when disconnecting
(clewarecutter.py lines 156-159). -/
def clewareSetChannelValue (t : ClewareCutterType) (connected : Bool) :
    Nat :=
  if connected then t.closing_value else t.opening_value

/-- The number of seconds `_set_channel_connected_state` sleeps after
issuing the command (clewarecutter.py lines 160-163): the code sleeps the
closing (connect) or opening (disconnect) transient only when the command
result is not `None` and its returncode is not 0. -/
def clewareSetChannelSleep (t : ClewareCutterType) (connected : Bool)
    (result : Option RunOutcome) : Nat :=
  match result with
  | some r =>
      if r.returncode ≠ 0 then
        (if connected then t.closing_transient else t.opening_transient)
      else 0
  | none => 0

/-! ### Probe loops (clewarecutter.py lines 104-139, usbrelay.py lines
86-114)

`ClewareCutter._probe_cutters` constructs a `ClewareCutter` for every
`Switch1` output line (its constructor stores `_get_type(version)`), logs
and skips it when `cutter_type is None`, and appends it otherwise.
`Usbrelay._probe_cutters` constructs a `Usbrelay` for every nonempty
output line and appends it unconditionally. -/

/-- A probed Cleware cutter object: `__init__` stores the version lookup
result in `self.cutter_type` (clewarecutter.py lines 34-36). -/
structure ClewareCutterDev where
  version : Int
  cutter_id : Nat
  cutter_type : Option ClewareCutterType
deriving DecidableEq, Repr

/-- `ClewareCutter(version=..., cutter_id=...)`. -/
def mkClewareCutter (version : Int) (cutter_id : Nat) : ClewareCutterDev :=
  ⟨version, cutter_id, clewareGetType clewareTypes version⟩

/-- The accumulation loop of `ClewareCutter._probe_cutters` over the parsed
`(version, cutter_id)` pairs of the `Switch1` lines: unknown types are
logged and skipped, known ones are appended, and the loop always continues
to the next unit. -/
def clewareProbeLoop : List (Int × Nat) → List ClewareCutterDev
  | [] => []
  | (v, cid) :: rest =>
      let cutter := mkClewareCutter v cid
      match cutter.cutter_type with
      | none => clewareProbeLoop rest
      | some _ => cutter :: clewareProbeLoop rest

/-- The `USBRELAY_TYPES` namedtuple (usbrelay.py lines 26-28). -/
structure UsbrelayType where
  version : Int
  cutter_type : String
  channels : Nat
deriving DecidableEq, Repr

/-- The static Usbrelay type table built by `Usbrelay.init`
(usbrelay.py lines 53-54). -/
def usbrelayTypes : List UsbrelayType := [⟨1, "USB", 2⟩]

/-- `Usbrelay._get_type`: first entry with a matching version. -/
def usbrelayGetType (types : List UsbrelayType) (version : Int) :
    Option UsbrelayType :=
  match types with
  | [] => none
  | t :: rest =>
      if t.version = version then some t
      else usbrelayGetType rest version

/-- A probed Usbrelay cutter object: `__init__` stores the version lookup
result in `self.cutter_type` (usbrelay.py lines 35-37). -/
structure UsbrelayDev where
  version : Int
  cutter_id : String
  cutter_type : Option UsbrelayType
deriving DecidableEq, Repr

/-- The accumulation loop of `Usbrelay._probe_cutters` over the parsed
`(version, cutter_id)` pairs of the nonempty output lines: every unit is
appended, with no check of its `cutter_type` (usbrelay.py lines 104-111).
-/
def usbrelayProbeLoop : List (Int × String) → List UsbrelayDev
  | [] => []
  | (v, cid) :: rest =>
      ⟨v, cid, usbrelayGetType usbrelayTypes v⟩ :: usbrelayProbeLoop rest

/-! ### Reservation manager (modelled from the spec)

`src/main.py` imports `DevicesManager` from `aft.devicesmanager` and calls
`device_manager.reserve()`, but the `aft.devicesmanager` module itself is
not among the sources at hand, so the reservation critical section is
modelled from the specification: reservation state for one device, an
advisory process-external lock keyed by that device, and two independent
processes each running the reserve() sequence «acquire the device lock →
read availability → if FREE mark RESERVED and succeed».  A process whose
lock acquisition or availability check fails reports failure (the
non-blocking arbitration policy; a blocking policy retries the same atomic
acquisition and changes nothing about exclusion).  The lock acquisition is
the only atomic primitive: reading and writing availability are separate
interleavable steps, so exclusion must come from the lock. -/

/-- Modelled from the spec: device availability
(`FREE`/`RESERVED`/`BLACKLISTED`). -/
inductive Avail where
  | FREE
  | RESERVED
  | BLACKLISTED
deriving DecidableEq, Fintype, Repr

/-- Modelled from the spec: program counter of one reserving process.
`readDone a` records the availability value the process read while holding
the lock. -/
inductive RPC where
  | start
  | locked
  | readDone (a : Avail)
  | succeeded
  | failed
deriving DecidableEq, Fintype, Repr

/-- Modelled from the spec: the shared state — the device's availability,
the holder of its process-external advisory lock (`none` when unheld), and
the two processes' program counters. -/
structure PoolState where
  avail : Avail
  lockHolder : Option Bool
  pcA : RPC
  pcB : RPC
deriving DecidableEq, Fintype, Repr

/-- Program counter of process `p` (process ids are `false` and `true`). -/
def pcOf (s : PoolState) (p : Bool) : RPC :=
  if p then s.pcB else s.pcA

/-- Replace the program counter of process `p`. -/
def setPc (s : PoolState) (p : Bool) (v : RPC) : PoolState :=
  if p then { s with pcB := v } else { s with pcA := v }

/-- Modelled from the spec: one atomic step of process `p` in the reserve()
sequence.  Lock acquisition succeeds only when no process holds the lock
(the OS advisory-lock primitive); holding the lock, the process reads the
availability; having read `FREE`, it marks the device `RESERVED` and
succeeds; having read anything else, or finding the lock taken, it fails.
Terminal processes do nothing. -/
def rstep (s : PoolState) (p : Bool) : PoolState :=
  match pcOf s p with
  | RPC.start =>
      match s.lockHolder with
      | none => { setPc s p RPC.locked with lockHolder := some p }
      | some _ => setPc s p RPC.failed
  | RPC.locked => setPc s p (RPC.readDone s.avail)
  | RPC.readDone a =>
      if a = Avail.FREE then
        { setPc s p RPC.succeeded with avail := Avail.RESERVED }
      else setPc s p RPC.failed
  | _ => s

/-- Run an arbitrary interleaving of steps of the two processes. -/
def runSched : PoolState → List Bool → PoolState
  | s, [] => s
  | s, p :: rest => runSched (rstep s p) rest

/-- The initial pool: exactly one matching device, `FREE`, lock unheld,
both reserve() calls about to start. -/
def initPool : PoolState :=
  ⟨Avail.FREE, none, RPC.start, RPC.start⟩

/-- Process `p` obtained the device. -/
def succeededAt (s : PoolState) (p : Bool) : Bool :=
  pcOf s p == RPC.succeeded

/-- Process `p` finished its reserve() call (with either outcome). -/
def terminalAt (s : PoolState) (p : Bool) : Bool :=
  pcOf s p == RPC.succeeded || pcOf s p == RPC.failed

/-- A process that got past lock acquisition (and has not failed). -/
def advancedAt : RPC → Bool
  | RPC.locked => true
  | RPC.readDone _ => true
  | RPC.succeeded => true
  | _ => false

/-- Inductive invariant of the reservation system: lock-holder exclusivity
for every process past acquisition, `RESERVED` only after a success, the
device never spontaneously blacklisted, reads only ever observe `FREE`
while the availability is still `FREE`, the lock is held only by an
advanced process, and a failed process lost the lock race to the other
process. -/
def reserveInv (s : PoolState) : Bool :=
  ([false, true].all fun p =>
    !(advancedAt (pcOf s p)) || s.lockHolder == some p) &&
  (!(s.avail == Avail.RESERVED) || succeededAt s false || succeededAt s true) &&
  !(s.avail == Avail.BLACKLISTED) &&
  ([false, true].all fun p =>
    match pcOf s p with
    | RPC.readDone a => a == Avail.FREE && s.avail == Avail.FREE
    | _ => true) &&
  (match s.lockHolder with
   | some q => advancedAt (pcOf s q)
   | none => true) &&
  ([false, true].all fun p =>
    !(pcOf s p == RPC.failed) || s.lockHolder == some (!p))

/-! ## Theorems -/

/-! ### Mode-entry retry lemmas -/

theorem attemptTrace_count_powerCycle (env : ModeEnv) (i : Nat) :
    (attemptTrace env i).count ModeEv.powerCycle = 1 := by
  unfold attemptTrace
  cases h : env.ipOk i <;> simp [h]

theorem attemptTrace_head (env : ModeEnv) (i : Nat) :
    (attemptTrace env i).head? = some ModeEv.powerCycle := by
  unfold attemptTrace
  cases h : env.ipOk i <;> simp [h]

theorem enterModeAux_count_le (env : ModeEnv) :
    ∀ fuel i, (enterModeAux env fuel i).1.count ModeEv.powerCycle ≤ fuel := by
  intro fuel
  induction fuel with
  | zero => intro i; simp [enterModeAux]
  | succ n ih =>
      intro i
      unfold enterModeAux
      by_cases h : attemptOk env i = true
      · simp [h, attemptTrace_count_powerCycle]
      · simp only [Bool.not_eq_true] at h
        simp [h, List.count_append, attemptTrace_count_powerCycle]
        have := ih (i + 1)
        omega

theorem enterModeAux_success (env : ModeEnv) :
    ∀ m fuel i, m < fuel →
    attemptOk env (i + m) = true →
    (∀ j, j < m → attemptOk env (i + j) = false) →
    (enterModeAux env fuel i).1.count ModeEv.powerCycle = m + 1 ∧
      (enterModeAux env fuel i).2 = true := by
  intro m
  induction m with
  | zero =>
      intro fuel i hm hok _
      match fuel, hm with
      | Nat.succ n, _ =>
          simp only [Nat.add_zero] at hok
          unfold enterModeAux
          simp [hok, attemptTrace_count_powerCycle]
  | succ m ih =>
      intro fuel i hm hok hfail
      match fuel, hm with
      | Nat.succ n, hm =>
          have h0 : attemptOk env i = false := by
            have := hfail 0 (Nat.succ_pos m)
            simpa using this
          unfold enterModeAux
          simp only [h0, Bool.false_eq_true, if_false]
          have hok' : attemptOk env (i + 1 + m) = true := by
            have : i + 1 + m = i + (m + 1) := by omega
            rw [this]; exact hok
          have hfail' : ∀ j, j < m → attemptOk env (i + 1 + j) = false := by
            intro j hj
            have : i + 1 + j = i + (j + 1) := by omega
            rw [this]; exact hfail (j + 1) (by omega)
          have := ih n (i + 1) (by omega) hok' hfail'
          simp [List.count_append, attemptTrace_count_powerCycle, this.1,
            this.2]
          omega

theorem enterModeAux_all_fail (env : ModeEnv) :
    ∀ fuel i, (∀ j, j < fuel → attemptOk env (i + j) = false) →
    (enterModeAux env fuel i).2 = false := by
  intro fuel
  induction fuel with
  | zero => intro i _; simp [enterModeAux]
  | succ n ih =>
      intro i hfail
      have h0 : attemptOk env i = false := by
        have := hfail 0 (Nat.succ_pos n)
        simpa using this
      unfold enterModeAux
      simp only [h0, Bool.false_eq_true, if_false]
      exact ih (i + 1) (by
        intro j hj
        have : i + 1 + j = i + (j + 1) := by omega
        rw [this]; exact hfail (j + 1) (by omega))

/-- C2.  Corrected claim: `PCDevice._enter_mode` performs at most
`_RETRY_ATTEMPTS` attempts, with `_RETRY_ATTEMPTS` defaulting to 4 for
mode entry (pcdevice.py line 70) and lowered to 3 for the lighter
configuration checks (line 595); each attempt restarts from a power cycle;
if IP acquisition and mode verification both succeed on attempt `k + 1 ≤
_RETRY_ATTEMPTS` (0-based `k`), the call returns after exactly `k + 1`
attempts without performing another; after exhausting all attempts it
raises `AFTDeviceError`. -/
theorem enter_mode_bounded_retries (env : ModeEnv) (k : Nat)
    (hk : k < PCDevice_RETRY_ATTEMPTS)
    (hsucc : attemptOk env k = true)
    (hbefore : ∀ j, j < k → attemptOk env j = false) :
    PCDevice_RETRY_ATTEMPTS = 4 ∧
    checkConnection_RETRY_ATTEMPTS = 3 ∧
    (∀ env2 : ModeEnv, ∀ r : Nat, attemptsPerformed env2 r ≤ r) ∧
    (∀ env2 : ModeEnv, ∀ i : Nat,
      (attemptTrace env2 i).head? = some ModeEv.powerCycle) ∧
    attemptsPerformed env PCDevice_RETRY_ATTEMPTS = k + 1 ∧
    (enterMode env PCDevice_RETRY_ATTEMPTS).2 = true ∧
    (∀ env2 : ModeEnv,
      (∀ j, j < PCDevice_RETRY_ATTEMPTS → attemptOk env2 j = false) →
      (enterMode env2 PCDevice_RETRY_ATTEMPTS).2 = false) := by
  refine ⟨rfl, rfl, ?_, ?_, ?_, ?_, ?_⟩
  · intro env2 r
    exact enterModeAux_count_le env2 r 0
  · intro env2 i
    exact attemptTrace_head env2 i
  · have := enterModeAux_success env k PCDevice_RETRY_ATTEMPTS 0 hk
      (by simpa using hsucc) (by simpa using hbefore)
    exact this.1
  · have := enterModeAux_success env k PCDevice_RETRY_ATTEMPTS 0 hk
      (by simpa using hsucc) (by simpa using hbefore)
    exact this.2
  · intro env2 hfail
    exact enterModeAux_all_fail env2 PCDevice_RETRY_ATTEMPTS 0
      (by simpa using hfail)

/-- C2 counterexample to the claim as stated: the mode-entry retry budget
`PCDevice._RETRY_ATTEMPTS` is 4, not 8. -/
theorem enter_mode_retry_default_is_four :
    PCDevice_RETRY_ATTEMPTS = 4 ∧ ¬PCDevice_RETRY_ATTEMPTS = 8 := by
  decide

/-- C2 witness: an environment that succeeds on the third attempt makes
`_enter_mode` return after exactly 3 attempts within the default budget of
4. -/
theorem enter_mode_bounded_retries_witness :
    attemptsPerformed
      ⟨fun i => decide (i = 2), fun _ => true⟩ PCDevice_RETRY_ATTEMPTS
      = 3 ∧
    (enterMode ⟨fun i => decide (i = 2), fun _ => true⟩
      PCDevice_RETRY_ATTEMPTS).2 = true :=
  ⟨(enter_mode_bounded_retries ⟨fun i => decide (i = 2), fun _ => true⟩ 2
      (by decide) (by decide)
      (by intro j hj; interval_cases j <;> rfl)).2.2.2.2.1,
   (enter_mode_bounded_retries ⟨fun i => decide (i = 2), fun _ => true⟩ 2
      (by decide) (by decide)
      (by intro j hj; interval_cases j <;> rfl)).2.2.2.2.2.1⟩

/-! ### PEM keystroke injection lemmas -/

theorem sendPemAux_joins_carry_timeout (outcome : Nat → PemOutcome)
    (timeout : Nat) :
    ∀ fuel i t, PemEv.joinWithTimeout t ∈ (sendPemAux outcome timeout fuel i).1 →
    t = timeout := by
  intro fuel
  induction fuel with
  | zero => intro i t h; simp [sendPemAux] at h
  | succ n ih =>
      intro i t h
      unfold sendPemAux at h
      cases houtcome : outcome i <;> simp [houtcome] at h
      · exact h
      · exact h
      · rcases h with h | h
        · exact h
        · exact ih (i + 1) t h

theorem sendPemAux_join_count (outcome : Nat → PemOutcome) (timeout : Nat) :
    ∀ fuel i,
    (sendPemAux outcome timeout fuel i).1.countP isJoinEv =
      (sendPemAux outcome timeout fuel i).1.count PemEv.spawnProcess := by
  intro fuel
  induction fuel with
  | zero => intro i; simp [sendPemAux]
  | succ n ih =>
      intro i
      unfold sendPemAux
      cases houtcome : outcome i <;>
        simp [houtcome, List.countP_cons, List.count_cons, isJoinEv,
          List.countP_append, List.count_append, ih (i + 1)]

theorem sendPemAux_spawn_le (outcome : Nat → PemOutcome) (timeout : Nat) :
    ∀ fuel i,
    (sendPemAux outcome timeout fuel i).1.count PemEv.spawnProcess ≤ fuel := by
  intro fuel
  induction fuel with
  | zero => intro i; simp [sendPemAux]
  | succ n ih =>
      intro i
      unfold sendPemAux
      cases houtcome : outcome i <;>
        simp [houtcome, List.count_cons, List.count_append]
      have := ih (i + 1)
      omega

theorem sendPemAux_all_hang (outcome : Nat → PemOutcome) (timeout : Nat)
    (hall : ∀ j, outcome j = PemOutcome.aliveAtTimeout) :
    ∀ fuel i,
    (sendPemAux outcome timeout fuel i).1.count PemEv.terminateChild = fuel ∧
    (sendPemAux outcome timeout fuel i).2 = PemResult.raisedDeviceError := by
  intro fuel
  induction fuel with
  | zero => intro i; simp [sendPemAux]
  | succ n ih =>
      intro i
      unfold sendPemAux
      simp [hall i, List.count_cons, List.count_append, (ih (i + 1)).1,
        (ih (i + 1)).2]

/-- C4.  Every keystroke-injection invocation spawns the injection tool in
a separate process and joins it with the wall-clock timeout (one join per
spawn, every join carrying the configured timeout, whose default is 60
seconds); when the child is still alive at the timeout it is terminated and
that attempt counts as failed, so when every attempt hangs the call
performs exactly `attempts` terminations and then raises `AFTDeviceError`
instead of hanging. -/
theorem send_pem_keystrokes_timeout (outcome : Nat → PemOutcome)
    (attempts timeout : Nat)
    (hall : ∀ j, outcome j = PemOutcome.aliveAtTimeout) :
    sendPEM_default_timeout = 60 ∧
    sendPEM_default_attempts = 1 ∧
    (∀ o2 : Nat → PemOutcome, ∀ a2 t2 : Nat,
      (sendPEMKeystrokes o2 a2 t2).1.countP isJoinEv =
        (sendPEMKeystrokes o2 a2 t2).1.count PemEv.spawnProcess ∧
      (∀ t, PemEv.joinWithTimeout t ∈ (sendPEMKeystrokes o2 a2 t2).1 →
        t = t2) ∧
      (sendPEMKeystrokes o2 a2 t2).1.count PemEv.spawnProcess ≤ a2) ∧
    (sendPEMKeystrokes outcome attempts timeout).1.count
      PemEv.terminateChild = attempts ∧
    (sendPEMKeystrokes outcome attempts timeout).2 =
      PemResult.raisedDeviceError := by
  refine ⟨rfl, rfl, ?_, ?_, ?_⟩
  · intro o2 a2 t2
    exact ⟨sendPemAux_join_count o2 t2 a2 0,
      fun t h => sendPemAux_joins_carry_timeout o2 t2 a2 0 t h,
      sendPemAux_spawn_le o2 t2 a2 0⟩
  · exact (sendPemAux_all_hang outcome timeout hall attempts 0).1
  · exact (sendPemAux_all_hang outcome timeout hall attempts 0).2

/-- C4 witness: with two attempts that both hang at a 60-second timeout,
both children are terminated and `AFTDeviceError` is raised. -/
theorem send_pem_keystrokes_timeout_witness :
    (sendPEMKeystrokes (fun _ => PemOutcome.aliveAtTimeout) 2 60).1.count
      PemEv.terminateChild = 2 ∧
    (sendPEMKeystrokes (fun _ => PemOutcome.aliveAtTimeout) 2 60).2 =
      PemResult.raisedDeviceError :=
  ⟨(send_pem_keystrokes_timeout (fun _ => PemOutcome.aliveAtTimeout) 2 60
      (fun _ => rfl)).2.2.2.1,
   (send_pem_keystrokes_timeout (fun _ => PemOutcome.aliveAtTimeout) 2 60
      (fun _ => rfl)).2.2.2.2⟩

/-! ### DFU transfer lemmas -/

theorem count_flatten_replicate {α : Type} [DecidableEq α] (m : Nat)
    (b : List α) (e : α) :
    ((List.replicate m b).flatten).count e = m * b.count e := by
  induction m with
  | zero => simp
  | succ n ih =>
      simp [List.replicate_succ, List.count_append, ih]
      ring

theorem dfuCallAux_spawn_le (env : DfuEnv) :
    ∀ fuel i, (dfuCallAux env fuel i).1.count DfuEv.spawnTransfer ≤ fuel := by
  intro fuel
  induction fuel with
  | zero => intro i; simp [dfuCallAux]
  | succ n ih =>
      intro i
      unfold dfuCallAux
      by_cases happ : env.appears i = true
      · cases hexit : env.exitStatus i <;>
          simp [happ, hexit, List.count_cons, List.count_append]
        have := ih (i + 1)
        omega
      · simp only [Bool.not_eq_true] at happ
        simp [happ, List.count_cons]

theorem dfuCallAux_success (env : DfuEnv) :
    ∀ m fuel i, m < fuel →
    (∀ j, j ≤ m → env.appears (i + j) = true) →
    (∀ j, j < m → env.exitStatus (i + j) = none) →
    (env.exitStatus (i + m)).isSome = true →
    dfuCallAux env fuel i =
      ((List.replicate m dfuFailBlock).flatten ++
        [DfuEv.waitForDevice, DfuEv.spawnTransfer], DfuResult.returned) := by
  intro m
  induction m with
  | zero =>
      intro fuel i hm happ hfail hsucc
      match fuel, hm with
      | Nat.succ n, _ =>
          simp only [Nat.add_zero] at hsucc
          have h0 : env.appears i = true := by simpa using happ 0 (by omega)
          unfold dfuCallAux
          cases hexit : env.exitStatus i
          · rw [hexit] at hsucc; simp at hsucc
          · simp [h0, hexit]
  | succ m ih =>
      intro fuel i hm happ hfail hsucc
      match fuel, hm with
      | Nat.succ n, hm =>
          have h0 : env.appears i = true := by simpa using happ 0 (by omega)
          have hex0 : env.exitStatus i = none := by
            simpa using hfail 0 (by omega)
          unfold dfuCallAux
          simp only [h0, if_true, hex0]
          have happ' : ∀ j, j ≤ m → env.appears (i + 1 + j) = true := by
            intro j hj
            have : i + 1 + j = i + (j + 1) := by omega
            rw [this]; exact happ (j + 1) (by omega)
          have hfail' : ∀ j, j < m → env.exitStatus (i + 1 + j) = none := by
            intro j hj
            have : i + 1 + j = i + (j + 1) := by omega
            rw [this]; exact hfail (j + 1) (by omega)
          have hsucc' : (env.exitStatus (i + 1 + m)).isSome = true := by
            have : i + 1 + m = i + (m + 1) := by omega
            rw [this]; exact hsucc
          rw [ih n (i + 1) (by omega) happ' hfail' hsucc']
          simp [List.replicate_succ, dfuFailBlock]

theorem dfuCallAux_all_fail (env : DfuEnv) :
    ∀ fuel i,
    (∀ j, j < fuel → env.appears (i + j) = true ∧
      env.exitStatus (i + j) = none) →
    dfuCallAux env fuel i =
      ((List.replicate fuel dfuFailBlock).flatten,
        DfuResult.raisedFlashIOError) := by
  intro fuel
  induction fuel with
  | zero => intro i _; simp [dfuCallAux]
  | succ n ih =>
      intro i hall
      have h0 := hall 0 (by omega)
      simp only [Nat.add_zero] at h0
      unfold dfuCallAux
      simp only [h0.1, if_true, h0.2]
      have hall' : ∀ j, j < n → env.appears (i + 1 + j) = true ∧
          env.exitStatus (i + 1 + j) = none := by
        intro j hj
        have : i + 1 + j = i + (j + 1) := by omega
        rw [this]; exact hall (j + 1) (by omega)
      rw [ih (i + 1) hall']
      simp [List.replicate_succ, dfuFailBlock]

/-- C3.  `EdisonDevice._dfu_call` makes at most `attempts` (default 4)
attempts; the wait budget of `_wait_for_device` is 15 seconds and the
transfer timeout defaults to 600 seconds; each attempt waits for the
device, spawns the transfer, and — when the process is still running at
the timeout — force-kills it and reboots the device before the next
attempt; when attempt `m + 1` (0-based `m`) is the first whose transfer
process completes, the trace is exactly `m` fail blocks (wait, spawn,
kill, reboot) followed by a final wait and spawn, so a stage that fails
twice then succeeds receives exactly 3 attempts with an intervening reboot
each time; exhausting all 4 attempts raises the `IOError` that aborts the
flash. -/
theorem dfu_call_bounded_attempts (env : DfuEnv) (m : Nat)
    (hm : m < dfu_default_attempts)
    (happ : ∀ j, j ≤ m → env.appears j = true)
    (hfail : ∀ j, j < m → env.exitStatus j = none)
    (hsucc : (env.exitStatus m).isSome = true) :
    dfu_default_attempts = 4 ∧
    dfu_default_timeout = 600 ∧
    dfu_wait_for_device_timeout = 15 ∧
    (∀ env2 : DfuEnv, ∀ fuel : Nat,
      (dfuCall env2 fuel).1.count DfuEv.spawnTransfer ≤ fuel) ∧
    dfuCall env dfu_default_attempts =
      ((List.replicate m dfuFailBlock).flatten ++
        [DfuEv.waitForDevice, DfuEv.spawnTransfer], DfuResult.returned) ∧
    (dfuCall env dfu_default_attempts).1.count DfuEv.spawnTransfer = m + 1 ∧
    (dfuCall env dfu_default_attempts).1.count DfuEv.rebootDevice = m ∧
    (∀ env2 : DfuEnv,
      (∀ j, j < dfu_default_attempts → env2.appears j = true ∧
        env2.exitStatus j = none) →
      dfuCall env2 dfu_default_attempts =
        ((List.replicate dfu_default_attempts dfuFailBlock).flatten,
          DfuResult.raisedFlashIOError)) := by
  have hmain := dfuCallAux_success env m dfu_default_attempts 0 hm
    (by simpa using happ) (by simpa using hfail) (by simpa using hsucc)
  refine ⟨rfl, rfl, rfl, ?_, hmain, ?_, ?_, ?_⟩
  · intro env2 fuel
    exact dfuCallAux_spawn_le env2 fuel 0
  · show (dfuCallAux env dfu_default_attempts 0).1.count
      DfuEv.spawnTransfer = m + 1
    rw [hmain]
    simp [List.count_append, count_flatten_replicate, dfuFailBlock]
  · show (dfuCallAux env dfu_default_attempts 0).1.count
      DfuEv.rebootDevice = m
    rw [hmain]
    simp [List.count_append, count_flatten_replicate, dfuFailBlock]
  · intro env2 hall
    exact dfuCallAux_all_fail env2 dfu_default_attempts 0
      (by simpa using hall)

/-- C3 witness: a transfer that is still running at the timeout on the
first two attempts and completes on the third receives exactly three
attempts, with a kill and a reboot after each of the two failures. -/
theorem dfu_call_bounded_attempts_witness :
    dfuCall ⟨fun _ => true, fun i => if i < 2 then none else some 0⟩
        dfu_default_attempts =
      ((List.replicate 2 dfuFailBlock).flatten ++
        [DfuEv.waitForDevice, DfuEv.spawnTransfer], DfuResult.returned) :=
  (dfu_call_bounded_attempts
      ⟨fun _ => true, fun i => if i < 2 then none else some 0⟩ 2
      (by decide) (fun j _ => rfl) (fun j hj => by simp [hj])
      (by decide)).2.2.2.2.1

/-- C9.  In `_dfu_call` an attempt is counted as failed only when the
transfer process is still running at the timeout: whenever `poll()`
reports any exit status `c` — zero or not — within the timeout, the call
returns immediately with no kill, no reboot and no further attempt, while
a still-running process always produces the kill/reboot fail block. -/
theorem dfu_exit_status_never_retried (env : DfuEnv) (fuel i : Nat)
    (c : Int) (happ : env.appears i = true)
    (hexit : env.exitStatus i = some c) :
    dfuCallAux env (fuel + 1) i =
      ([DfuEv.waitForDevice, DfuEv.spawnTransfer], DfuResult.returned) ∧
    (dfuCallAux env (fuel + 1) i).1.count DfuEv.killTransfer = 0 ∧
    (dfuCallAux env (fuel + 1) i).1.count DfuEv.rebootDevice = 0 ∧
    (∀ env2 : DfuEnv, ∀ fuel2 i2 : Nat, env2.appears i2 = true →
      env2.exitStatus i2 = none →
      (dfuCallAux env2 (fuel2 + 1) i2).1.take 4 = dfuFailBlock) := by
  have hmain : dfuCallAux env (fuel + 1) i =
      ([DfuEv.waitForDevice, DfuEv.spawnTransfer], DfuResult.returned) := by
    unfold dfuCallAux
    simp [happ, hexit]
  refine ⟨hmain, ?_, ?_, ?_⟩
  · rw [hmain]; rfl
  · rw [hmain]; rfl
  · intro env2 fuel2 i2 happ2 hexit2
    unfold dfuCallAux
    simp [happ2, hexit2, dfuFailBlock]

/-- C9 witness: a transfer that exits with the non-zero status 1 on the
first attempt ends the stage successfully with a single spawn and no
retry. -/
theorem dfu_exit_status_never_retried_witness :
    dfuCall ⟨fun _ => true, fun _ => some 1⟩ dfu_default_attempts =
      ([DfuEv.waitForDevice, DfuEv.spawnTransfer], DfuResult.returned) :=
  (dfu_exit_status_never_retried ⟨fun _ => true, fun _ => some 1⟩ 3 0 1
      rfl rfl).1

/-! ### Flashing stage-order lemmas -/

theorem runStages_take (ok : String → Bool) :
    ∀ l : List String,
    (runStages ok l).1 = l.take (runStages ok l).1.length := by
  intro l
  induction l with
  | nil => simp [runStages]
  | cons s rest ih =>
      unfold runStages
      by_cases h : ok s = true
      · simp only [h, if_true, List.length_cons, List.take_succ_cons]
        rw [← ih]
      · simp only [Bool.not_eq_true] at h
        simp [h]

theorem runStages_started_iff (ok : String → Bool) :
    ∀ (l : List String) (i : Nat),
    i < (runStages ok l).1.length ↔
      (i < l.length ∧ ∀ j, j < i → ok (l.getD j "") = true) := by
  intro l
  induction l with
  | nil => intro i; simp [runStages]
  | cons s rest ih =>
      intro i
      unfold runStages
      by_cases h : ok s = true
      · simp only [h, if_true]
        cases i with
        | zero => simp
        | succ i' =>
            simp only [List.length_cons, Nat.succ_lt_succ_iff]
            rw [ih i']
            constructor
            · rintro ⟨h1, h2⟩
              refine ⟨h1, ?_⟩
              intro j hj
              cases j with
              | zero => simpa using h
              | succ j' => simpa using h2 j' (by omega)
            · rintro ⟨h1, h2⟩
              refine ⟨h1, ?_⟩
              intro j hj
              simpa using h2 (j + 1) (by omega)
      · simp only [Bool.not_eq_true] at h
        simp only [h, Bool.false_eq_true, if_false]
        cases i with
        | zero => simp
        | succ i' =>
            simp only [List.length_cons, Nat.succ_lt_succ_iff]
            constructor
            · intro hlt
              simp at hlt
            · rintro ⟨_, h2⟩
              have := h2 0 (by omega)
              simp [h] at this

/-- C7.  `EdisonDevice._flash_image` runs its DFU stages in the fixed
order: the fourteen IFWI firmware images, the bootloader (`u-boot0` and
its two environment stages), then the boot, update and root partitions;
the stages actually started always form a prefix of that list in order; a
stage is started only when every earlier stage completed successfully
(equivalently, a fatal stage failure prevents every later stage from
running), and conversely all earlier stages succeeding starts the stage.
-/
theorem edison_flash_stage_order (ok : String → Bool) (i j : Nat)
    (hij : j < i) (hstart : i < (edisonFlashImage ok).1.length) :
    flashStageNames =
      ["ifwi00", "ifwib00", "ifwi01", "ifwib01", "ifwi02", "ifwib02",
       "ifwi03", "ifwib03", "ifwi04", "ifwib04", "ifwi05", "ifwib05",
       "ifwi06", "ifwib06", "u-boot0", "u-boot-env0", "u-boot-env1",
       "boot", "update", "rootfs"] ∧
    (edisonFlashImage ok).1 =
      flashStageNames.take (edisonFlashImage ok).1.length ∧
    ok (flashStageNames.getD j "") = true ∧
    (∀ ok2 : String → Bool, ∀ i2 : Nat, i2 < flashStageNames.length →
      (∀ j2, j2 < i2 → ok2 (flashStageNames.getD j2 "") = true) →
      i2 < (edisonFlashImage ok2).1.length) := by
  refine ⟨by decide, runStages_take ok flashStageNames, ?_, ?_⟩
  · have := (runStages_started_iff ok flashStageNames i).mp hstart
    exact this.2 j hij
  · intro ok2 i2 hi2 hall
    exact (runStages_started_iff ok2 flashStageNames i2).mpr ⟨hi2, hall⟩

/-- C7 witness: when every stage before `boot` succeeds and `boot` raises,
the started stages are exactly the first 18 (through `boot`) in list
order, and in particular the stage at position 2 had succeeded. -/
theorem edison_flash_stage_order_witness :
    (fun s => !(s == "boot")) (flashStageNames.getD 2 "") = true ∧
    (edisonFlashImage (fun s => !(s == "boot"))).1 =
      flashStageNames.take
        (edisonFlashImage (fun s => !(s == "boot"))).1.length :=
  ⟨(edison_flash_stage_order (fun s => !(s == "boot")) 5 2 (by decide)
      (by decide)).2.2.1,
   (edison_flash_stage_order (fun s => !(s == "boot")) 5 2 (by decide)
      (by decide)).2.1⟩

/-! ### Remote command sequence lemmas -/

theorem runRemoteSeq_stop (status : Nat → Int) :
    ∀ (l : List RemoteCmd) (base i : Nat), i < l.length →
    (∀ j, j < i → remoteExecuteOk (status (base + j))
      ((l.getD j ⟨[], []⟩).ignoreCodes) = true) →
    remoteExecuteOk (status (base + i))
      ((l.getD i ⟨[], []⟩).ignoreCodes) = false →
    (runRemoteSeq status base l).1.length = i + 1 ∧
    (runRemoteSeq status base l).2 = false := by
  intro l
  induction l with
  | nil => intro base i hi; simp at hi
  | cons c rest ih =>
      intro base i hi hpre hfail
      unfold runRemoteSeq
      cases i with
      | zero =>
          simp only [Nat.add_zero, List.getD_cons_zero] at hfail
          simp [hfail]
      | succ i' =>
          have h0 : remoteExecuteOk (status base) c.ignoreCodes = true := by
            have := hpre 0 (by omega)
            simpa using this
          simp only [h0, if_true]
          have hpre' : ∀ j, j < i' → remoteExecuteOk (status (base + 1 + j))
              ((rest.getD j ⟨[], []⟩).ignoreCodes) = true := by
            intro j hj
            have harith : base + 1 + j = base + (j + 1) := by omega
            rw [harith]
            simpa using hpre (j + 1) (by omega)
          have hfail' : remoteExecuteOk (status (base + 1 + i'))
              ((rest.getD i' ⟨[], []⟩).ignoreCodes) = false := by
            have harith : base + 1 + i' = base + (i' + 1) := by omega
            rw [harith]
            simpa using hfail
          have := ih (base + 1) i' (by simpa using hi) hpre' hfail'
          simp [this.1, this.2]

/-- C5 counterexample to the claim as stated: with the remote `mount`
returning the non-zero status 32, `_flash_image` continues past the
failed command — all 7 of its remote commands run and no failure is
surfaced — because the call passes `ignore_return_codes=[32]`. -/
theorem remote_flash_continues_past_mount_failure :
    (fun i => if i = 0 then (32 : Int) else 0) 0 ≠ 0 ∧
    (runRemoteSeq (fun i => if i = 0 then (32 : Int) else 0) 0
      (flashImageCmds false "/mnt/img_data_nfs/img.hdddirect"
        "/dev/sda")).1.length = 7 ∧
    (runRemoteSeq (fun i => if i = 0 then (32 : Int) else 0) 0
      (flashImageCmds false "/mnt/img_data_nfs/img.hdddirect"
        "/dev/sda")).2 = true := by
  decide

/-- C5.  Corrected claim: in `PCDevice._flash_image` followed by
`PCDevice._install_tester_public_key`, every remote command returning a
status that is neither zero nor explicitly whitelisted by its
`ignore_return_codes` argument aborts the attempt right there — no later
command is issued and the failure is surfaced — and the only whitelisted
statuses are 32 for the initial nfs `mount` and 1 for the `.ssh` `mkdir`;
every other command whitelists nothing. -/
theorem remote_flash_failure_aborts (uses_hddimg hasBmap : Bool)
    (nfs tgt rootp home : String) (status : Nat → Int) (i : Nat)
    (hi : i < (remoteFlashCmds uses_hddimg hasBmap nfs tgt rootp
      home).length)
    (hpre : ∀ j, j < i → remoteExecuteOk (status j)
      (((remoteFlashCmds uses_hddimg hasBmap nfs tgt rootp home).getD j
        ⟨[], []⟩).ignoreCodes) = true)
    (hfail : remoteExecuteOk (status i)
      (((remoteFlashCmds uses_hddimg hasBmap nfs tgt rootp home).getD i
        ⟨[], []⟩).ignoreCodes) = false) :
    (runRemoteSeq status 0 (remoteFlashCmds uses_hddimg hasBmap nfs tgt
      rootp home)).1.length = i + 1 ∧
    (runRemoteSeq status 0 (remoteFlashCmds uses_hddimg hasBmap nfs tgt
      rootp home)).2 = false ∧
    (∀ c ∈ remoteFlashCmds uses_hddimg hasBmap nfs tgt rootp home,
      c.ignoreCodes = [] ∨
      (c.argv = ["mount", IMG_NFS_MOUNT_POINT] ∧ c.ignoreCodes = [32]) ∨
      (c.argv.head? = some "mkdir" ∧ c.ignoreCodes = [1])) := by
  have hstop := runRemoteSeq_stop status
    (remoteFlashCmds uses_hddimg hasBmap nfs tgt rootp home) 0 i hi
    (by simpa using hpre) (by simpa using hfail)
  refine ⟨hstop.1, hstop.2, ?_⟩
  cases uses_hddimg <;> cases hasBmap <;>
    simp [remoteFlashCmds, flashImageCmds, installKeyCmds,
      mountSingleLayerCmds, mountTwoLayersCmds, bmapArgs,
      rootHomeQueryArgv, List.forall_mem_cons]

/-- C5 witness: a `bmaptool copy` (second command, whitelisting nothing)
that exits with status 1 stops the flashing sequence after 2 issued
commands with the failure surfaced. -/
theorem remote_flash_failure_aborts_witness :
    (runRemoteSeq (fun i => if i = 1 then (1 : Int) else 0) 0
      (remoteFlashCmds false false "/mnt/img_data_nfs/img.hdddirect"
        "/dev/sda" "/dev/sda3" "root")).1.length = 2 ∧
    (runRemoteSeq (fun i => if i = 1 then (1 : Int) else 0) 0
      (remoteFlashCmds false false "/mnt/img_data_nfs/img.hdddirect"
        "/dev/sda" "/dev/sda3" "root")).2 = false :=
  ⟨(remote_flash_failure_aborts false false "/mnt/img_data_nfs/img.hdddirect"
      "/dev/sda" "/dev/sda3" "root" (fun i => if i = 1 then (1 : Int) else 0)
      1 (by decide) (by intro j hj; interval_cases j; decide)
      (by decide)).1,
   (remote_flash_failure_aborts false false "/mnt/img_data_nfs/img.hdddirect"
      "/dev/sda" "/dev/sda3" "root" (fun i => if i = 1 then (1 : Int) else 0)
      1 (by decide) (by intro j hj; interval_cases j; decide)
      (by decide)).2.1⟩

/-- C10.  `PCDevice` discriminates image handling solely by file
extension: `write_image` classifies the image as a two-layer image exactly
when `os.path.splitext` yields the extension `.hddimg`;
`_install_tester_public_key` then issues two `mount` commands in that case
and a single one otherwise, and issues the IMA `setfattr` on the installed
`authorized_keys` exactly when the image is not a `.hddimg`. -/
theorem pcdevice_extension_discrimination (fn : String) (uses : Bool)
    (rp td rh : String) :
    (usesHddimg fn = true ↔ splitextExt fn = ".hddimg") ∧
    usesHddimg "image.hddimg" = true ∧
    usesHddimg "image.hdddirect" = false ∧
    usesHddimg "/path/to/image2.hddimg" = true ∧
    usesHddimg ".hddimg" = false ∧
    ((installKeyCmds uses rp td rh).countP
      (fun c => c.argv.head? == some "mount") = if uses then 2 else 1) ∧
    ((installKeyCmds uses rp td rh).any
      (fun c => c.argv.head? == some "setfattr")) = !uses := by
  refine ⟨?_, by decide, by decide, by decide, by decide, ?_, ?_⟩
  · simp [usesHddimg]
  · cases uses <;>
      simp [installKeyCmds, mountSingleLayerCmds, mountTwoLayersCmds,
        rootHomeQueryArgv, List.countP_cons, List.countP_append]
  · cases uses <;>
      simp [installKeyCmds, mountSingleLayerCmds, mountTwoLayersCmds,
        rootHomeQueryArgv]

/-! ### Cleware settle-time behaviour -/

/-- C6.  The claim (and spec §4.1) states that `connect()`/`disconnect()`
on a Cleware channel issue the hardware command and then always block for
the cutter type's settle time for the corresponding direction.  The code
(clewarecutter.py lines 160-163) instead sleeps only when the issued
command's returncode is not 0: a successful connect on the version-5 USB
cutter sleeps 0 seconds instead of its closing transient of 3 — for every
table entry the successful-command sleep is 0 in both directions — while
the direction-specific transient sleep fires exactly on failed commands.
-/
theorem cleware_settle_skipped_on_success :
    clewareGetType clewareTypes 5 =
      some ⟨5, "USB", 1, 0, 1, 1, 3⟩ ∧
    (⟨5, "USB", 1, 0, 1, 1, 3⟩ : ClewareCutterType).closing_transient = 3 ∧
    clewareSetChannelSleep ⟨5, "USB", 1, 0, 1, 1, 3⟩ true (some ⟨0⟩) = 0 ∧
    (∀ t ∈ clewareTypes,
      clewareSetChannelSleep t true (some ⟨0⟩) = 0 ∧
      clewareSetChannelSleep t false (some ⟨0⟩) = 0 ∧
      clewareSetChannelSleep t true (some ⟨1⟩) = t.closing_transient ∧
      clewareSetChannelSleep t false (some ⟨1⟩) = t.opening_transient) := by
  decide

/-! ### Probe-loop lemmas -/

theorem clewareGetType_eq_none (types : List ClewareCutterType) (v : Int)
    (h : ∀ t ∈ types, t.version ≠ v) : clewareGetType types v = none := by
  induction types with
  | nil => rfl
  | cons t rest ih =>
      unfold clewareGetType
      rw [if_neg (h t (by simp))]
      exact ih (fun t2 ht2 => h t2 (by simp [ht2]))

theorem clewareProbeLoop_known (units : List (Int × Nat)) :
    ∀ d ∈ clewareProbeLoop units, d.cutter_type.isSome = true := by
  induction units with
  | nil => intro d hd; simp [clewareProbeLoop] at hd
  | cons u rest ih =>
      obtain ⟨uv, uc⟩ := u
      intro d hd
      cases hty : (mkClewareCutter uv uc).cutter_type with
      | none =>
          simp only [clewareProbeLoop, hty] at hd
          exact ih d hd
      | some t =>
          simp only [clewareProbeLoop, hty, List.mem_cons] at hd
          rcases hd with rfl | hd
          · simp [hty]
          · exact ih d hd

theorem usbrelayProbeLoop_length (us : List (Int × String)) :
    (usbrelayProbeLoop us).length = us.length := by
  induction us with
  | nil => rfl
  | cons u rest ih =>
      obtain ⟨v, cid⟩ := u
      simp [usbrelayProbeLoop, ih]

/-- C8 counterexample to the claim as stated: the Usbrelay driver family
does not exclude unknown-version units — its probe loop appends a unit
whose version 2 matches no table entry, leaving it in the cutter set with
no type. -/
theorem usbrelay_probe_keeps_unknown_version :
    usbrelayGetType usbrelayTypes 2 = none ∧
    usbrelayProbeLoop [(2, "/dev/ttyUSB0")] =
      [⟨2, "/dev/ttyUSB0", none⟩] := by
  decide

/-- C8.  Corrected claim: in the Cleware driver, a probed unit whose
reported version matches no entry in the static table yields no type
(true of any version absent from the table), is logged and excluded from
the resulting cutter set, and the probe loop continues over the remaining
units without raising — every cutter in the resulting set has a known
type.  This does not extend to every driver family: the Usbrelay probe
loop keeps every probed unit, so its set always has one entry per unit,
unknown versions included. -/
theorem cleware_probe_skips_unknown (units : List (Int × Nat)) (v : Int)
    (cid : Nat) (hv : clewareGetType clewareTypes v = none) :
    (∀ d ∈ clewareProbeLoop units, d.cutter_type.isSome = true) ∧
    clewareProbeLoop ((v, cid) :: units) = clewareProbeLoop units ∧
    (∀ v2 : Int, (∀ t ∈ clewareTypes, t.version ≠ v2) →
      clewareGetType clewareTypes v2 = none) ∧
    (∀ us : List (Int × String),
      (usbrelayProbeLoop us).length = us.length) := by
  refine ⟨clewareProbeLoop_known units, ?_,
    fun v2 h => clewareGetType_eq_none clewareTypes v2 h,
    usbrelayProbeLoop_length⟩
  simp [clewareProbeLoop, mkClewareCutter, hv]

/-- C8 witness: a Cleware unit reporting the unknown version 7 is skipped
while the probe continues over the remaining units, and the Usbrelay
probe keeps both of its units. -/
theorem cleware_probe_skips_unknown_witness :
    clewareProbeLoop [(7, 9), (5, 1)] = clewareProbeLoop [(5, 1)] ∧
    (usbrelayProbeLoop [(1, "/dev/ttyUSB0"), (2, "/dev/ttyUSB1")]).length
      = 2 :=
  ⟨(cleware_probe_skips_unknown [(5, 1)] 7 9 (by decide)).2.1,
   (cleware_probe_skips_unknown [(5, 1)] 7 9 (by decide)).2.2.2
     [(1, "/dev/ttyUSB0"), (2, "/dev/ttyUSB1")]⟩

/-! ### Reservation mutual-exclusion lemmas -/

theorem reserveInv_init : reserveInv initPool = true := by decide

set_option maxRecDepth 4000 in
theorem reserveInv_step : ∀ (s : PoolState) (p : Bool),
    reserveInv s = true → reserveInv (rstep s p) = true := by decide

theorem reserveInv_run : ∀ (sched : List Bool) (s : PoolState),
    reserveInv s = true → reserveInv (runSched s sched) = true := by
  intro sched
  induction sched with
  | nil => intro s h; exact h
  | cons p rest ih =>
      intro s h
      exact ih (rstep s p) (reserveInv_step s p h)

set_option maxRecDepth 4000 in
theorem reserveInv_no_two_winners : ∀ s : PoolState, reserveInv s = true →
    ¬(succeededAt s false = true ∧ succeededAt s true = true) := by decide

set_option maxRecDepth 4000 in
theorem reserveInv_one_winner : ∀ s : PoolState, reserveInv s = true →
    terminalAt s false = true → terminalAt s true = true →
    succeededAt s false ≠ succeededAt s true := by decide

/-- C1.  Modelled from the spec: the reservation manager
(`aft.devicesmanager`, imported by `src/main.py`) is not among the sources,
so reserve() is modelled per spec §4.4/§5 — a pool with exactly one
matching FREE device, a process-external advisory lock keyed by the
device whose acquisition is the only atomic primitive, and two independent
processes whose reads and writes of the availability interleave
arbitrarily.  For every interleaving, never do both reserve() calls obtain
the device, and whenever both calls run to completion exactly one
succeeds and the other fails per the (non-blocking) arbitration policy —
a blocking policy merely repeats the same atomic acquisition step. -/
theorem reserve_mutual_exclusion (sched : List Bool) :
    ¬(succeededAt (runSched initPool sched) false = true ∧
      succeededAt (runSched initPool sched) true = true) ∧
    (terminalAt (runSched initPool sched) false = true →
     terminalAt (runSched initPool sched) true = true →
     succeededAt (runSched initPool sched) false ≠
       succeededAt (runSched initPool sched) true) := by
  have hinv := reserveInv_run sched initPool reserveInv_init
  exact ⟨reserveInv_no_two_winners _ hinv, reserveInv_one_winner _ hinv⟩

/-- C1 witness: in the interleaving where the first process completes its
whole critical section and then the second attempts the lock, both calls
terminate and exactly one obtained the device. -/
theorem reserve_mutual_exclusion_witness :
    terminalAt (runSched initPool [false, false, false, true]) false
      = true ∧
    terminalAt (runSched initPool [false, false, false, true]) true
      = true ∧
    succeededAt (runSched initPool [false, false, false, true]) false ≠
      succeededAt (runSched initPool [false, false, false, true]) true :=
  ⟨by decide, by decide,
   (reserve_mutual_exclusion [false, false, false, true]).2 (by decide)
     (by decide)⟩

end AFT
